import Mathlib

/-!
Shallow embedding of the Run Orchestrator of the busted test explorer
(`src/execute.ts`): platform-dependent filter quoting, the idle watchdog,
the line-oriented protocol handler of the `readline` 'line' listener, the
error-message construction, and the close handler.  Strings are modelled by
Lean `String` (a wrapper around `List Char`), JavaScript `undefined` by
`Option`, and a thrown exception by a `thrown : Option String` component of
each handler's result.  `JSON.parse` and the identity cache (`cache.getTest`)
are external collaborators and are passed in as function parameters
(`decode`, `resolve`).
-/

-- ---------- String helpers ---------- --

/-- The fixed literal marker that identifies a structured report line. -/
def MAGIC : String := "[VSCODE-BUSTED-REPORT]"

/-- Character-level test that a line begins with the marker; mirrors
JavaScript `line.startsWith(MAGIC)` (all marker characters are ASCII, so
byte- and character-level prefixes coincide). -/
def startsWithMagic (line : String) : Bool :=
  MAGIC.data.isPrefixOf line.data

/-- The JSON payload of a structured line; mirrors
`line.substring(MAGIC.length + 1)` (drop the marker and one separator). -/
def payloadOf (line : String) : String :=
  String.mk (line.data.drop (MAGIC.data.length + 1))

/-- Splitting a character list at every backslash; mirrors the behaviour of
JavaScript `s.split('\x5c')` (always returns at least one piece). -/
def splitOnBackslashAux : List Char → List Char → List (List Char)
  | [], acc => [acc.reverse]
  | c :: rest, acc =>
    if c = '\\' then acc.reverse :: splitOnBackslashAux rest []
    else splitOnBackslashAux rest (c :: acc)

def splitOnBackslash (s : List Char) : List (List Char) :=
  splitOnBackslashAux s []

/-- The short test name; mirrors `report.test.split('\x5c').pop()`. -/
def lastComponent (s : String) : String :=
  String.mk (((splitOnBackslash s.data).getLast?).getD [])

/-- Replacement of the first occurrence of a literal pattern; mirrors
JavaScript `String.prototype.replace` with a string (not regex) first
argument, which replaces only the first occurrence. -/
def replaceFirst : List Char → List Char → List Char → List Char
  | [], _pat, _repl => []
  | c :: rest, pat, repl =>
    if pat.isPrefixOf (c :: rest) then repl ++ (c :: rest).drop pat.length
    else c :: replaceFirst rest pat repl

/-- The `report.message.replace('/([^\r])\n/g', '$1\r\n')` call of the
top-level error branch: the first argument is a plain string, so the call
replaces the first occurrence of that literal text (with a literal `$1`,
since a string pattern has no capture groups). -/
def jsReplaceErrorNewlines (m : String) : String :=
  String.mk (replaceFirst m.data "/([^\r])\n/g".data "$1\r\n".data)

-- ---------- Data model ---------- --

/-- An addressable test object held by the identity cache
(`vscode.TestItem`): an identifier and an optional resource URI. -/
structure TestItem where
  id : String
  uri : Option String
deriving DecidableEq, Repr

/-- A decoded structured record (`Report` of `types.ts`), as produced by
`JSON.parse` on the payload of a structured line.  Every field may be
absent (`undefined`), hence `Option`. -/
structure Report where
  type : Option String
  test : Option String
  status : Option String
  duration : Option Nat
  message : Option String
  line : Option Nat
deriving DecidableEq, Repr

/-- The payload of a constructed `vscode.TestMessage`: either a structured
diff (from `TestMessage.diff(message, expected, actual)`) or a flat text. -/
inductive MessageBody where
  | diffMsg (message expected actual : String)
  | plainMsg (text : String)
deriving DecidableEq, Repr

/-- A constructed test message with its optional source location
(URI and 0-based line). -/
structure TestMessage where
  body : MessageBody
  location : Option (String × Nat)
deriving DecidableEq, Repr

/-- A lifecycle call on the external run sink (`vscode.TestRun`). -/
inductive SinkCall where
  | appendOutput (text : String) (location : Option (String × Nat)) (test : Option TestItem)
  | started (t : TestItem)
  | passed (t : TestItem) (duration : Option Nat)
  | failed (t : TestItem) (msg : TestMessage) (duration : Option Nat)
  | skipped (t : TestItem)
  | errored (t : TestItem) (msg : TestMessage) (duration : Option Nat)
deriving DecidableEq, Repr

/-- The mutable local state of one `execute` invocation: the two counters
and the currently active test. -/
structure ExecState where
  cntSuccessTests : Nat
  cntFailTests : Nat
  currentTest : Option TestItem
deriving DecidableEq, Repr

/-- Result of processing one line (or a list of lines): the state after the
side effects that did happen, the run-sink calls emitted, and the exception
that escaped the handler, if any (`none` = returned normally). -/
structure LineResult where
  state : ExecState
  calls : List SinkCall
  thrown : Option String
deriving DecidableEq, Repr

-- ---------- Process Launcher quoting ---------- --

/-- Escaping of internal double quotes; mirrors
`s.replace(/"/g, '\x5c"')` (a global regex replace, i.e. every quote). -/
def escapeChars : List Char → List Char
  | [] => []
  | c :: rest =>
    if c = '"' then '\\' :: '"' :: escapeChars rest
    else c :: escapeChars rest

def escapeQuotes (s : String) : String := String.mk (escapeChars s.data)

/-- The test `/^".*"$/.test(s)`: the string starts and ends with a double
quote (length at least 2) and the characters between contain no line
terminator (`.` in a JavaScript regex matches any character except the four
line terminators LF, CR, U+2028 and U+2029). -/
def isQuoteDelimited (s : String) : Bool :=
  match s.data with
  | [] => false
  | c :: rest =>
    (c == '"') && decide (rest.getLast? = some '"')
      && rest.dropLast.all (fun d =>
           d != '\n' && d != '\r' && d != '\u2028' && d != '\u2029')

/-- The `quoteIfWindows` helper of `execute.ts`: on every platform other
than win32 the token is returned unchanged; on win32 a token already
delimited by double quotes is returned unchanged, and every other token is
wrapped in double quotes with internal quotes escaped. -/
def quoteIfWindows (platform : String) (s : String) : String :=
  if platform ≠ "win32" then s
  else if isQuoteDelimited s then s
  else "\"" ++ escapeQuotes s ++ "\""

/-- The rendering of filter specifications in the argument vector of
`execute`: one distinct array element per name. -/
def filterArgs (platform : String) (names : List String) : List String :=
  names.map (fun name => "--filter=" ++ quoteIfWindows platform name)

/-- Whether a token contains a space or a double quote (the condition the
specification claims gates the win32 quoting). -/
def hasSpaceOrQuote (s : String) : Bool :=
  s.data.any (fun c => c == ' ' || c == '"')

-- ---------- Test error formatting ---------- --

/-- Consume a literal character sequence from the front of a list. -/
def dropLiteral (lit s : List Char) : Option (List Char) :=
  if lit.isPrefixOf s then some (s.drop lit.length) else none

/-- Attempt of the tail of the diff pattern at a position just after a
": " occurrence: `(?<msg>.*)\nPassed in:\n(?<actual>.*)\nExpected:\n(?<expected>.*)`.
Since `.` does not match a newline, `msg` and `actual` are forced to extend
exactly to the end of their line, so the line after `msg` must be exactly
"Passed in:" and the line after `actual` exactly "Expected:". -/
def tryDiffTail (s : List Char) : Option (List Char × List Char × List Char) :=
  let msg := s.takeWhile (fun c => c != '\n')
  match dropLiteral "\nPassed in:\n".data (s.drop msg.length) with
  | none => none
  | some r2 =>
    let actual := r2.takeWhile (fun c => c != '\n')
    match dropLiteral "\nExpected:\n".data (r2.drop actual.length) with
    | none => none
    | some r3 => some (msg, actual, r3.takeWhile (fun c => c != '\n'))

/-- Scan of `message.match(/[^:]*: (?<msg>.*)\nPassed in:\n(?<actual>.*)\nExpected:\n(?<expected>.*)/)`.
The head `[^:]*` (any characters except a colon, newlines included) forces
the matched colon to be the first colon at or after the match start, so the
earliest successful match start corresponds to the first ": " occurrence,
in order, whose tail satisfies the rest of the pattern. -/
def scanDiff : List Char → Option (List Char × List Char × List Char)
  | [] => none
  | c :: rest =>
    if c = ':' then
      match rest with
      | ' ' :: rest2 =>
        match tryDiffTail rest2 with
        | some g => some g
        | none => scanDiff rest
      | _ => scanDiff rest
    else scanDiff rest

/-- The regex match of `getErrorMessage`, returning the named groups
(msg, actual, expected) of the earliest match, if any. -/
def matchDiff (s : String) : Option (String × String × String) :=
  (scanDiff s.data).map
    (fun g => (String.mk g.1, String.mk g.2.1, String.mk g.2.2))

/-- The `getErrorMessage` function of `execute.ts`.  The guard
`if (report.message)` is a JavaScript truthiness test: it is falsy both for
an absent message and for an empty string, and in either case the result is
the flat message "Unknown error" with no location.  With a truthy (present,
nonempty) message that matches the diff pattern it builds
`vscode.TestMessage.diff(msg, expected, actual)`; otherwise a flat message
with the original text.  If the test has a URI and the report carries a
truthy line number, a location at the 0-based line `report.line - 1` is
attached. -/
def getErrorMessage (test : TestItem) (report : Report) : TestMessage :=
  match report.message with
  | some m =>
    if m = "" then ⟨.plainMsg "Unknown error", none⟩
    else
      let body : MessageBody :=
        match matchDiff m with
        | some (msg, actual, expected) => .diffMsg msg expected actual
        | none => .plainMsg m
      let loc : Option (String × Nat) :=
        match test.uri, report.line with
        | some u, some n => if n ≠ 0 then some (u, n - 1) else none
        | _, _ => none
      ⟨body, loc⟩
  | none => ⟨.plainMsg "Unknown error", none⟩

-- ---------- Line protocol handler ---------- --

/-- The `resultConcole` helper: append the message plus a CRLF terminator to
the run sink, with the given location and test attribution. -/
def resultConcole (msg : String) (location : Option (String × Nat))
    (test : Option TestItem) : SinkCall :=
  .appendOutput (msg ++ "\r\n") location test

/-- Rendering of `report.status` inside a template literal: an absent value
prints as "undefined" in JavaScript. -/
def showStatus : Option String → String
  | none => "undefined"
  | some s => s

/-- The body of the structured branch of the 'line' listener of `execute`
(everything after `JSON.parse` succeeded).  `resolve` is the identity cache
lookup `cache.getTest`.  An absent `report.test` makes
`report.test.split('\x5c')` throw a TypeError before the switch; an absent
`report.message` makes `report.message.replace(...)` of the top-level error
branch throw after the fail counter was already incremented. -/
def handleReport (resolve : String → Option TestItem) (st : ExecState)
    (report : Report) : LineResult :=
  let test := report.test.bind resolve
  match report.test with
  | none => ⟨st, [], some "TypeError: report.test is undefined"⟩
  | some tname =>
    let testName := lastComponent tname
    match report.type with
    | some "testStart" =>
      let out := resultConcole ("[Busted] ▶ Run: " ++ testName) none none
      match test with
      | some t => ⟨{ st with currentTest := some t }, [out, .started t], none⟩
      | none => ⟨st, [out], none⟩
    | some "testEnd" =>
      let out := resultConcole
        ("[Busted] ⏹ End: " ++ testName ++ " (" ++ showStatus report.status ++ ")") none none
      let st1 := { st with currentTest := none }
      match test with
      | some t =>
        match report.status with
        | some "success" =>
          ⟨{ st1 with cntSuccessTests := st1.cntSuccessTests + 1 },
            [out, .passed t report.duration], none⟩
        | some "failure" =>
          ⟨{ st1 with cntFailTests := st1.cntFailTests + 1 },
            [out, .failed t (getErrorMessage t report) report.duration], none⟩
        | some "pending" => ⟨st1, [out, .skipped t], none⟩
        | some "error" =>
          ⟨{ st1 with cntFailTests := st1.cntFailTests + 1 },
            [out, .errored t (getErrorMessage t report) report.duration], none⟩
        | _ => ⟨st1, [out], none⟩
      | none => ⟨st1, [out], none⟩
    | some "error" =>
      let st1 := { st with cntFailTests := st.cntFailTests + 1 }
      match report.message with
      | none => ⟨st1, [], some "TypeError: report.message is undefined"⟩
      | some m =>
        let mgs := "[Busted] 💥 error: " ++ jsReplaceErrorNewlines m ++ "\r\n"
        ⟨st1, [resultConcole mgs none st.currentTest], none⟩
    | _ => ⟨{ st with cntFailTests := st.cntFailTests + 1 }, [], none⟩

/-- The 'line' listener of `execute`: a line beginning with the marker is
decoded by `JSON.parse` (the `decode` parameter; `none` models a thrown
SyntaxError, which the listener does not catch) and dispatched to the
structured-report switch; any other line is forwarded verbatim to the run
sink, attributed to the current test. -/
def handleLine (resolve : String → Option TestItem)
    (decode : String → Option Report) (st : ExecState) (line : String) :
    LineResult :=
  if startsWithMagic line then
    match decode (payloadOf line) with
    | none => ⟨st, [], some "SyntaxError: Unexpected token in JSON"⟩
    | some report => handleReport resolve st report
  else
    ⟨st, [resultConcole line none st.currentTest], none⟩

/-- Sequential processing of a list of lines.  An exception escaping the
listener is unhandled; it aborts the processing of the remaining lines. -/
def processLines (resolve : String → Option TestItem)
    (decode : String → Option Report) :
    ExecState → List String → LineResult
  | st, [] => ⟨st, [], none⟩
  | st, l :: rest =>
    let r := handleLine resolve decode st l
    match r.thrown with
    | some e => ⟨r.state, r.calls, some e⟩
    | none =>
      let r2 := processLines resolve decode r.state rest
      ⟨r2.state, r.calls ++ r2.calls, r2.thrown⟩

-- ---------- Idle watchdog ---------- --

/-- State of one `withIdleWatchdog` instance: the shared last-activity
timestamp and whether `clearInterval` has been called on the timer. -/
structure WdState where
  last : Nat
  cleared : Bool
deriving DecidableEq, Repr

/-- The events the watchdog observes: output activity on stdout or stderr
(a bump of `last`), the process close and error events, and a periodic
timer tick. -/
inductive WdEvent where
  | data (now : Nat)
  | close
  | error
  | tick (now : Nat)
deriving DecidableEq, Repr

/-- The externally visible actions of the watchdog on expiry. -/
inductive WdAction where
  | output (text : String) (test : Option TestItem)
  | errored (t : TestItem) (msg : String)
  | kill
deriving DecidableEq, Repr

/-- The timeout message of the watchdog. -/
def timeoutMsg (ms : Nat) : String :=
  "[Busted] ⏱ No output for " ++ toString ms ++ "ms — killing process ❌"

/-- The expiry actions of the watchdog, in source order: the output line
(attributed to the captured test value), `run.errored` if the captured
value is a test, then `child.kill()`. -/
def fireActions (ms : Nat) (cap : Option TestItem) : List WdAction :=
  WdAction.output (timeoutMsg ms ++ "\r\n") cap ::
    ((match cap with
      | some t => [WdAction.errored t (timeoutMsg ms)]
      | none => []) ++ [WdAction.kill])

/-- One step of `withIdleWatchdog`.  `cap` is the `currentTest` argument:
JavaScript passes the value the variable holds at the call, so the watchdog
keeps this snapshot for its whole lifetime.  Data events bump `last`; close
and error events clear the interval; a tick on a cleared timer never runs;
a tick past the deadline emits the expiry actions and clears the timer. -/
def wdStep (ms : Nat) (cap : Option TestItem) (s : WdState) :
    WdEvent → WdState × List WdAction
  | .data now => ({ s with last := now }, [])
  | .close => ({ s with cleared := true }, [])
  | .error => ({ s with cleared := true }, [])
  | .tick now =>
    if s.cleared then (s, [])
    else if now - s.last > ms then
      ({ s with cleared := true }, fireActions ms cap)
    else (s, [])

/-- Folding the watchdog over a list of observed events, collecting the
emitted actions. -/
def wdRun (ms : Nat) (cap : Option TestItem) :
    WdState → List WdEvent → WdState × List WdAction
  | s, [] => (s, [])
  | s, e :: rest =>
    let p := wdStep ms cap s e
    let q := wdRun ms cap p.1 rest
    (q.1, p.2 ++ q.2)

/-- Number of process-termination requests in an action list. -/
def countKills (as : List WdAction) : Nat :=
  as.countP (fun a => match a with | .kill => true | _ => false)

/-- The value of `currentTest` at the `withIdleWatchdog(busted, idleMs, run,
currentTest)` call of `execute`: the variable is declared just above and has
not been assigned, so the watchdog captures `undefined`. -/
def executeWatchdogCapture : Option TestItem := none

-- ---------- Close handler ---------- --

/-- Rendering of the exit code inside the failure template literal: a null
code prints as "null". -/
def showExitCode : Option Int → String
  | none => "null"
  | some n => toString n

/-- The first half of the summary line of the close listener. -/
def closeMsg (code : Option Int) : String :=
  if code = some 0 then "[Busted] ✅ Finished successfully"
  else "[Busted] ❌ Failed with exit code " ++ showExitCode code

/-- The statistics half of the summary line. -/
def statistics (s f : Nat) : String :=
  "with success: " ++ toString s ++ " and fails: " ++ toString f

/-- The close listener of `execute`: emit the single summary line to the
run sink (attributed to the current test), then resolve the promise with
`code ?? 1`. -/
def onClose (code : Option Int) (s f : Nat) (cur : Option TestItem) :
    List SinkCall × Int :=
  ([resultConcole (closeMsg code ++ " " ++ statistics s f) none cur],
    code.getD 1)

/-- Whether a summary text opens with the success wording (its first ten
characters are "[Busted] ✅"). -/
def hasSuccessWording (t : String) : Bool :=
  decide (t.data.take 10 = "[Busted] ✅".data)

-- ---------- Stream counting and well-formedness ---------- --

/-- A line whose decoded report is a testEnd with status success. -/
def isSuccessEndLine (decode : String → Option Report) (l : String) : Bool :=
  startsWithMagic l &&
    (match decode (payloadOf l) with
     | some r => decide (r.type = some "testEnd" ∧ r.status = some "success")
     | none => false)

/-- A line whose decoded report increments the fail counter: a testEnd with
status failure or error, a top-level error report, or a report of unknown
kind. -/
def isFailCountedLine (decode : String → Option Report) (l : String) : Bool :=
  startsWithMagic l &&
    (match decode (payloadOf l) with
     | some r =>
       decide ((r.type = some "testEnd" ∧
            (r.status = some "failure" ∨ r.status = some "error"))
         ∨ r.type = some "error"
         ∨ (r.type ≠ some "testStart" ∧ r.type ≠ some "testEnd" ∧
            r.type ≠ some "error"))
     | none => false)

/-- Well-formedness of a decoded report relative to a resolver: the test
field is present, testStart and testEnd names resolve, a testEnd carries one
of the four statuses, and a top-level error report carries a message. -/
def wellFormedReport (resolve : String → Option TestItem) (r : Report) : Prop :=
  r.test.isSome = true ∧
  ((r.type = some "testStart" ∨ r.type = some "testEnd") →
     (r.test.bind resolve).isSome = true) ∧
  (r.type = some "testEnd" →
     r.status = some "success" ∨ r.status = some "failure" ∨
     r.status = some "pending" ∨ r.status = some "error") ∧
  (r.type = some "error" → r.message.isSome = true)

instance instDecidableWellFormedReport (resolve : String → Option TestItem)
    (r : Report) : Decidable (wellFormedReport resolve r) := by
  unfold wellFormedReport
  infer_instance

/-- A line is well formed when it is either passthrough or decodes to a
well-formed report. -/
def wellFormedLine (resolve : String → Option TestItem)
    (decode : String → Option Report) (l : String) : Prop :=
  startsWithMagic l = true →
    match decode (payloadOf l) with
    | some r => wellFormedReport resolve r
    | none => False

-- ---------- Concrete fixtures ---------- --

/-- A resolvable test of the fixture suite. -/
def tAlpha : TestItem := ⟨"suiteA\\alpha", some "file:///a.lua"⟩

/-- A second resolvable test of the fixture suite. -/
def tBeta : TestItem := ⟨"suiteB\\beta", none⟩

/-- A fixture identity resolver with exactly two known names. -/
def resolveFix (name : String) : Option TestItem :=
  if name = "suiteA\\alpha" then some tAlpha
  else if name = "suiteB\\beta" then some tBeta
  else none

/-- A fixture decoder modelling `JSON.parse` on a finite table of payloads;
every other payload is invalid JSON (a thrown SyntaxError). -/
def decodeFix (payload : String) : Option Report :=
  if payload = "start-alpha" then
    some ⟨some "testStart", some "suiteA\\alpha", none, none, none, none⟩
  else if payload = "end-alpha-success" then
    some ⟨some "testEnd", some "suiteA\\alpha", some "success", some 5, none, none⟩
  else if payload = "end-beta-failure" then
    some ⟨some "testEnd", some "suiteB\\beta", some "failure", some 7,
      some "boom", none⟩
  else if payload = "toplevel-error" then
    some ⟨some "error", some "x", none, none, some "bad setup", none⟩
  else if payload = "mystery" then
    some ⟨some "banana", some "x", none, none, none, none⟩
  else none

/-- A structured line with the given payload. -/
def magicLine (payload : String) : String := MAGIC ++ " " ++ payload

/-- The test of the watchdog-snapshot scenario. -/
def tSlow : TestItem := ⟨"spec\\slow test", none⟩

/-- The resolver of the watchdog-snapshot scenario. -/
def resolveSlow (name : String) : Option TestItem :=
  if name = "spec\\slow test" then some tSlow else none

/-- The testStart report of the watchdog-snapshot scenario. -/
def startSlowReport : Report :=
  ⟨some "testStart", some "spec\\slow test", none, none, none, none⟩

/-- A well-formed top-level error report with no message field. -/
def errorReportNoMessage : Report :=
  ⟨some "error", some "x", none, none, none, none⟩

/-- Count of errored calls in a watchdog action list. -/
def countErrored (as : List WdAction) : Nat :=
  as.countP (fun a => match a with | .errored _ _ => true | _ => false)

/-- A fixture stream: a resolved start and success end interleaved with a
passthrough line, a top-level error, an unknown-kind report, and a resolved
failure end. -/
def c3Lines : List String :=
  [magicLine "start-alpha", "print from the test", magicLine "end-alpha-success",
   magicLine "toplevel-error", magicLine "mystery", magicLine "end-beta-failure"]

/-- A fixture decoder for the counter-divergence stream: a wire-format-valid
top-level error report without the optional message field, and a resolvable
success testEnd. -/
def decodeFailFix (payload : String) : Option Report :=
  if payload = "error-no-message" then
    some ⟨some "error", some "x", none, none, none, none⟩
  else if payload = "end-alpha-success" then
    some ⟨some "testEnd", some "suiteA\\alpha", some "success", some 5, none, none⟩
  else none

/-- The stream on which the counter totals fail: a message-less top-level
error report followed by a success testEnd. -/
def c3FailLines : List String :=
  [magicLine "error-no-message", magicLine "end-alpha-success"]

/-- C9: every input line that does not begin with the marker is forwarded
to the run sink as output exactly once, with its text unchanged apart from
the appended CRLF terminator, attributed to the currently active test if
one exists and to no test otherwise; the session state is unchanged and the
listener returns normally. -/
theorem claim_C9_passthrough_verbatim
    (resolve : String → Option TestItem) (decode : String → Option Report)
    (st : ExecState) (line : String) (h : startsWithMagic line = false) :
    handleLine resolve decode st line
      = ⟨st, [.appendOutput (line ++ "\r\n") none st.currentTest], none⟩ := by
  simp [handleLine, h, resultConcole]

/-- Witness for C9 at a concrete passthrough line and a session with an
active test. -/
theorem claim_C9_passthrough_verbatim_witness :
    startsWithMagic "ok 1 - spec" = false ∧
    handleLine resolveFix decodeFix ⟨2, 3, some tAlpha⟩ "ok 1 - spec"
      = ⟨⟨2, 3, some tAlpha⟩,
          [.appendOutput "ok 1 - spec\r\n" none (some tAlpha)], none⟩ :=
  ⟨by decide,
    claim_C9_passthrough_verbatim resolveFix decodeFix ⟨2, 3, some tAlpha⟩
      "ok 1 - spec" (by decide)⟩

/-- C8: the code contradicts the claim.  A well-formed top-level error
report with no message field makes the listener throw a TypeError
(`report.message.replace` on an undefined message) after the fail counter
was already incremented: the handler does not return normally. -/
theorem claim_C8_error_without_message_throws
    (resolve : String → Option TestItem) (st : ExecState) :
    handleReport resolve st errorReportNoMessage
      = ⟨{ st with cntFailTests := st.cntFailTests + 1 }, [],
          some "TypeError: report.message is undefined"⟩ := rfl

/-- C1: the code contradicts the claim.  A structured line whose payload is
not valid JSON makes `JSON.parse` throw a SyntaxError that the listener
does not catch: no parser-level error is logged to the run sink, and the
remaining lines of the batch (for example a valid testEnd) are not
processed. -/
theorem claim_C1_invalid_payload_unhandled
    (resolve : String → Option TestItem) (decode : String → Option Report)
    (st : ExecState) (line : String) (rest : List String)
    (h1 : startsWithMagic line = true) (h2 : decode (payloadOf line) = none) :
    processLines resolve decode st (line :: rest)
      = ⟨st, [], some "SyntaxError: Unexpected token in JSON"⟩ := by
  simp [processLines, handleLine, h1, h2]

/-- Witness for C1: a corrupt structured line followed by a valid
success-testEnd line; the success end is never dispatched. -/
theorem claim_C1_invalid_payload_unhandled_witness :
    startsWithMagic (magicLine "corrupt json") = true ∧
    decodeFix (payloadOf (magicLine "corrupt json")) = none ∧
    decodeFix (payloadOf (magicLine "end-alpha-success"))
      = some ⟨some "testEnd", some "suiteA\\alpha", some "success", some 5,
          none, none⟩ ∧
    processLines resolveFix decodeFix ⟨0, 0, none⟩
        [magicLine "corrupt json", magicLine "end-alpha-success"]
      = ⟨⟨0, 0, none⟩, [], some "SyntaxError: Unexpected token in JSON"⟩ :=
  ⟨by decide, by decide, by decide,
    claim_C1_invalid_payload_unhandled resolveFix decodeFix ⟨0, 0, none⟩
      (magicLine "corrupt json") [magicLine "end-alpha-success"]
      (by decide) (by decide)⟩

/-- C2: the code contradicts the claim.  The watchdog holds the value of
`currentTest` captured when `withIdleWatchdog` was called (undefined at
that point of `execute`), not the value at expiry: after a resolved
testStart sets the active test, an expiry tick emits its output attributed
to no test and never calls `run.errored`, although the active test at that
moment is the started test. -/
theorem claim_C2_watchdog_snapshot_defect :
    (handleReport resolveSlow ⟨0, 0, none⟩ startSlowReport).state.currentTest
      = some tSlow ∧
    executeWatchdogCapture = none ∧
    (wdStep 120000 executeWatchdogCapture ⟨0, false⟩ (.tick 300000)).2
      = [WdAction.output (timeoutMsg 120000 ++ "\r\n") none, WdAction.kill] ∧
    countErrored
      (wdStep 120000 executeWatchdogCapture ⟨0, false⟩ (.tick 300000)).2 = 0 := by
  refine ⟨?_, rfl, ?_, ?_⟩
  · rfl
  · simp [wdStep, fireActions, executeWatchdogCapture]
  · simp [wdStep, fireActions, executeWatchdogCapture, countErrored]

/-- C7 counterexample: on win32 the token "abc" contains neither a space
nor a double quote, yet it is wrapped in double quotes, contradicting the
claim that wrapping happens only for space- or quote-containing tokens. -/
theorem claim_C7_counterexample :
    hasSpaceOrQuote "abc" = false ∧
    quoteIfWindows "win32" "abc" = "\"abc\"" ∧
    quoteIfWindows "win32" "abc" ≠ "abc" := by decide

/-- Escaping is the per-character expansion of every double quote. -/
lemma escapeChars_eq_flatMap (l : List Char) :
    escapeChars l = l.flatMap (fun c => if c = '"' then ['\\', '"'] else [c]) := by
  induction l with
  | nil => rfl
  | cons c rest ih =>
    by_cases h : c = '"' <;> simp [escapeChars, h, ih]

/-- C7 amended: filter names are rendered as distinct `--filter=<name>`
array elements; on every platform other than win32 each token passes
through unchanged and unescaped; on win32 a token already delimited by
double quotes passes through unchanged, and every other token (not only
space- or quote-containing ones) is wrapped in double quotes with each
internal quote escaped. -/
theorem claim_C7_filter_quoting
    (platform s : String) (names : List String) (i : Nat) :
    (platform ≠ "win32" → quoteIfWindows platform s = s) ∧
    (isQuoteDelimited s = true → quoteIfWindows "win32" s = s) ∧
    (isQuoteDelimited s = false →
       (quoteIfWindows "win32" s).data
         = '"' :: (s.data.flatMap
             (fun c => if c = '"' then ['\\', '"'] else [c]) ++ ['"'])) ∧
    (filterArgs platform names)[i]?
      = names[i]?.map (fun nm => "--filter=" ++ quoteIfWindows platform nm) := by
  refine ⟨fun h => by simp [quoteIfWindows, h], fun h => by simp [quoteIfWindows, h],
    fun h => ?_, ?_⟩
  · have hq : quoteIfWindows "win32" s = "\"" ++ escapeQuotes s ++ "\"" := by
      simp [quoteIfWindows, h]
    rw [hq, ← escapeChars_eq_flatMap]
    rfl
  · simp [filterArgs]

/-- Witness for C7 amended, exercising the non-win32 passthrough, the
rendering of a filter token, and the win32 wrapping of a quote-containing
token. -/
theorem claim_C7_filter_quoting_witness :
    quoteIfWindows "linux" "a b" = "a b" ∧
    (filterArgs "linux" ["a b"])[0]? = some "--filter=a b" ∧
    (quoteIfWindows "win32" "say \"hi\"").data
      = "\"say \\\"hi\\\"\"".data := by
  refine ⟨(claim_C7_filter_quoting "linux" "a b" [] 0).1 (by decide), ?_, ?_⟩
  · have h := (claim_C7_filter_quoting "linux" "a b" ["a b"] 0).2.2.2
    have h1 := (claim_C7_filter_quoting "linux" "a b" [] 0).1 (by decide)
    rw [h]
    simp [h1]
  · have h := (claim_C7_filter_quoting "win32" "say \"hi\"" [] 0).2.2.1 (by decide)
    rw [h]
    decide

/-- C5: the close listener resolves the run with the exit code of the close
event, a null code normalized to 1; it emits exactly one summary line to
the run sink immediately before resolving, and that line opens with the
success wording exactly when the exit code equals 0 and carries the final
success and fail counters. -/
theorem claim_C5_close_summary_and_code
    (code : Option Int) (s f : Nat) (cur : Option TestItem) :
    (onClose code s f cur).2 = code.getD 1 ∧
    (onClose code s f cur).1
      = [SinkCall.appendOutput
          (closeMsg code ++ " " ++ statistics s f ++ "\r\n") none cur] ∧
    (hasSuccessWording (closeMsg code ++ " " ++ statistics s f) = true
      ↔ code = some 0) := by
  refine ⟨rfl, rfl, ?_, ?_⟩
  · intro h
    by_cases hc : code = some 0
    · exact hc
    · exfalso
      rw [show closeMsg code
            = "[Busted] ❌ Failed with exit code " ++ showExitCode code from by
          simp [closeMsg, hc]] at h
      have hten : ((("[Busted] ❌ Failed with exit code " ++ showExitCode code)
          ++ " " ++ statistics s f).data.take 10) = "[Busted] ❌".data := rfl
      simp only [hasSuccessWording, hten] at h
      exact absurd (of_decide_eq_true h) (by decide)
  · intro hc
    subst hc
    rfl

/-- C10: a testEnd report (with its test field present) always clears the
active test, whether or not the name resolves and whatever the status; a
testStart whose name does not resolve leaves the whole session state
unchanged; consequently a passthrough line arriving right after a testEnd
is attributed to no test. -/
theorem claim_C10_active_test_transitions
    (resolve : String → Option TestItem) (decode : String → Option Report)
    (st : ExecState) (r : Report) (name : String) (l : String) :
    (r.type = some "testEnd" → r.test.isSome = true →
       (handleReport resolve st r).state.currentTest = none) ∧
    (r.type = some "testStart" → r.test = some name → resolve name = none →
       (handleReport resolve st r).state = st) ∧
    (r.type = some "testEnd" → r.test.isSome = true →
       startsWithMagic l = false →
       (handleLine resolve decode (handleReport resolve st r).state l).calls
         = [.appendOutput (l ++ "\r\n") none none]) := by
  have hEnd : r.type = some "testEnd" → r.test.isSome = true →
      (handleReport resolve st r).state.currentTest = none := by
    intro hty hts
    obtain ⟨rtype, rtest, rstatus, rdur, rmsg, rline⟩ := r
    simp only at hty
    subst hty
    obtain ⟨nm, hnm⟩ := Option.isSome_iff_exists.mp hts
    simp only at hnm
    subst hnm
    simp only [handleReport, Option.some_bind]
    cases hres : resolve nm with
    | none => simp [hres]
    | some t =>
      simp only [hres]
      split <;> rfl
  refine ⟨hEnd, ?_, ?_⟩
  · intro hty hts hres
    obtain ⟨rtype, rtest, rstatus, rdur, rmsg, rline⟩ := r
    simp only at hty hts
    subst hty hts
    simp [handleReport, hres]
  · intro hty hts hl
    rw [show (handleLine resolve decode (handleReport resolve st r).state l)
        = ⟨(handleReport resolve st r).state,
            [.appendOutput (l ++ "\r\n") none
              (handleReport resolve st r).state.currentTest], none⟩ from by
      simp [handleLine, hl, resultConcole]]
    rw [hEnd hty hts]

/-- Witness for C10: a testEnd for an unresolvable name still clears the
active test; a testStart for an unresolvable name leaves it untouched; a
passthrough line after a testEnd is attributed to no test. -/
theorem claim_C10_active_test_transitions_witness :
    (handleReport resolveFix ⟨1, 1, some tAlpha⟩
        ⟨some "testEnd", some "ghost", some "success", none, none, none⟩).state.currentTest
      = none ∧
    (handleReport resolveFix ⟨1, 1, some tAlpha⟩
        ⟨some "testStart", some "ghost", none, none, none, none⟩).state
      = ⟨1, 1, some tAlpha⟩ ∧
    (handleLine resolveFix decodeFix
        (handleReport resolveFix ⟨1, 1, some tAlpha⟩
          ⟨some "testEnd", some "ghost", some "success", none, none, none⟩).state
        "tail output").calls
      = [.appendOutput "tail output\r\n" none none] := by
  have h := claim_C10_active_test_transitions resolveFix decodeFix
    ⟨1, 1, some tAlpha⟩
    ⟨some "testEnd", some "ghost", some "success", none, none, none⟩
    "ghost" "tail output"
  have h2 := claim_C10_active_test_transitions resolveFix decodeFix
    ⟨1, 1, some tAlpha⟩
    ⟨some "testStart", some "ghost", none, none, none, none⟩
    "ghost" "tail output"
  exact ⟨h.1 rfl rfl, h2.2.1 rfl rfl (by decide), h.2.2 rfl rfl (by decide)⟩

/-- A cleared watchdog stays cleared and emits nothing on any event. -/
lemma wdStep_cleared (ms : Nat) (cap : Option TestItem) (s : WdState)
    (e : WdEvent) (h : s.cleared = true) :
    (wdStep ms cap s e).1.cleared = true ∧ (wdStep ms cap s e).2 = [] := by
  cases e <;> simp [wdStep, h]

/-- A cleared watchdog emits no action over any remaining event trace. -/
lemma wdRun_cleared (ms : Nat) (cap : Option TestItem) (s : WdState)
    (xs : List WdEvent) (h : s.cleared = true) :
    (wdRun ms cap s xs).2 = [] := by
  induction xs generalizing s with
  | nil => rfl
  | cons e rest ih =>
    have hc := wdStep_cleared ms cap s e h
    simp [wdRun, hc.2, ih _ hc.1]

/-- Watchdog runs decompose over trace concatenation. -/
lemma wdRun_append (ms : Nat) (cap : Option TestItem) (s : WdState)
    (xs ys : List WdEvent) :
    wdRun ms cap s (xs ++ ys)
      = ((wdRun ms cap (wdRun ms cap s xs).1 ys).1,
         (wdRun ms cap s xs).2 ++ (wdRun ms cap (wdRun ms cap s xs).1 ys).2) := by
  induction xs generalizing s with
  | nil => simp [wdRun]
  | cons e rest ih => simp [wdRun, ih, List.append_assoc]

/-- The expiry action list requests termination exactly once. -/
lemma countKills_fireActions (ms : Nat) (cap : Option TestItem) :
    countKills (fireActions ms cap) = 1 := by
  cases cap <;> simp [fireActions, countKills]

/-- Over any trace the watchdog requests termination at most once, and not
at all when it starts cleared. -/
lemma wdRun_kills_le (ms : Nat) (cap : Option TestItem) (xs : List WdEvent) :
    ∀ s : WdState,
      countKills (wdRun ms cap s xs).2 ≤ (if s.cleared then 0 else 1) := by
  induction xs with
  | nil => intro s; simp [wdRun, countKills]
  | cons e rest ih =>
    intro s
    cases e with
    | data now =>
      have h := ih { s with last := now }
      simpa [wdRun, wdStep, countKills] using h
    | close =>
      have h1 := wdRun_cleared ms cap { s with cleared := true } rest rfl
      simp [wdRun, wdStep, countKills, h1]
    | error =>
      have h1 := wdRun_cleared ms cap { s with cleared := true } rest rfl
      simp [wdRun, wdStep, countKills, h1]
    | tick now =>
      by_cases hc : s.cleared
      · have h1 := wdRun_cleared ms cap s rest hc
        simp [wdRun, wdStep, hc, countKills, h1]
      · by_cases hfire : now - s.last > ms
        · have h1 := wdRun_cleared ms cap { s with cleared := true } rest rfl
          simp [wdRun, wdStep, hc, hfire, countKills, List.countP_append, h1]
          have := countKills_fireActions ms cap
          simp [countKills] at this
          omega
        · have h := ih s
          simpa [wdRun, wdStep, hc, hfire, countKills] using h

/-- C4: the idle watchdog requests process termination at most once per
run; everything it emits after a close or error event of the process is
nothing (it never fires after close); clearing it twice equals clearing it
once; and on an expiry tick of an uncleared watchdog it emits exactly the
expiry actions (one output line, the optional errored call, exactly one
termination request) and stops polling. -/
theorem claim_C4_watchdog_single_fire
    (ms : Nat) (cap : Option TestItem) (s : WdState)
    (trace pre post : List WdEvent) (now : Nat) :
    countKills (wdRun ms cap s trace).2 ≤ 1 ∧
    (wdRun ms cap s (pre ++ WdEvent.close :: post)).2 = (wdRun ms cap s pre).2 ∧
    (wdRun ms cap s (pre ++ WdEvent.error :: post)).2 = (wdRun ms cap s pre).2 ∧
    wdStep ms cap (wdStep ms cap s WdEvent.close).1 WdEvent.close
      = ((wdStep ms cap s WdEvent.close).1, []) ∧
    (s.cleared = false → now - s.last > ms →
       (wdStep ms cap s (WdEvent.tick now)).2 = fireActions ms cap ∧
       (wdStep ms cap s (WdEvent.tick now)).1.cleared = true ∧
       countKills (fireActions ms cap) = 1) := by
  refine ⟨?_, ?_, ?_, ?_, ?_⟩
  · exact le_trans (wdRun_kills_le ms cap trace s) (by split <;> omega)
  · have h := wdRun_cleared ms cap
      { (wdRun ms cap s pre).1 with cleared := true } post rfl
    simp [wdRun_append, wdRun, wdStep, h]
  · have h := wdRun_cleared ms cap
      { (wdRun ms cap s pre).1 with cleared := true } post rfl
    simp [wdRun_append, wdRun, wdStep, h]
  · simp [wdStep]
  · intro h1 h2
    refine ⟨?_, ?_, countKills_fireActions ms cap⟩ <;> simp [wdStep, h1, h2]

/-- Witness for C4 at a concrete trace with one expiry. -/
theorem claim_C4_watchdog_single_fire_witness :
    countKills (wdRun 1000 (some tAlpha) ⟨0, false⟩
      [WdEvent.tick 5000, WdEvent.tick 9000]).2 ≤ 1 ∧
    (wdRun 1000 (some tAlpha) ⟨0, false⟩
        ([WdEvent.data 10] ++ WdEvent.close :: [WdEvent.tick 99999])).2
      = (wdRun 1000 (some tAlpha) ⟨0, false⟩ [WdEvent.data 10]).2 ∧
    (wdStep 1000 (some tAlpha) ⟨0, false⟩ (WdEvent.tick 2000)).2
      = fireActions 1000 (some tAlpha) ∧
    countKills (fireActions 1000 (some tAlpha)) = 1 := by
  have h := claim_C4_watchdog_single_fire 1000 (some tAlpha) ⟨0, false⟩
    [WdEvent.tick 5000, WdEvent.tick 9000] [WdEvent.data 10]
    [WdEvent.tick 99999] 2000
  exact ⟨h.1, h.2.1, (h.2.2.2.2 rfl (by decide)).1, (h.2.2.2.2 rfl (by decide)).2.2⟩

/-- Counter and exception behaviour of the structured-report switch on a
well-formed report: the listener returns normally, the success counter
gains one exactly for a success testEnd, and the fail counter gains one
exactly for a failure or error testEnd, a top-level error report, or an
unknown-kind report. -/
lemma handleReport_wellFormed (resolve : String → Option TestItem)
    (st : ExecState) (r : Report) (hw : wellFormedReport resolve r) :
    (handleReport resolve st r).thrown = none ∧
    (handleReport resolve st r).state.cntSuccessTests
      = st.cntSuccessTests
        + (if r.type = some "testEnd" ∧ r.status = some "success"
           then 1 else 0) ∧
    (handleReport resolve st r).state.cntFailTests
      = st.cntFailTests
        + (if (r.type = some "testEnd" ∧
                (r.status = some "failure" ∨ r.status = some "error"))
             ∨ r.type = some "error"
             ∨ (r.type ≠ some "testStart" ∧ r.type ≠ some "testEnd" ∧
                r.type ≠ some "error")
           then 1 else 0) := by
  obtain ⟨htest, hres, hstat, hmsg⟩ := hw
  obtain ⟨rtype, rtest, rstatus, rdur, rmsg, rline⟩ := r
  simp only at htest hres hstat hmsg
  obtain ⟨name, hname⟩ := Option.isSome_iff_exists.mp htest
  subst hname
  by_cases hS : rtype = some "testStart"
  · subst hS
    obtain ⟨t, ht⟩ := Option.isSome_iff_exists.mp (hres (Or.inl rfl))
    simp only [Option.some_bind] at ht
    simp [handleReport, ht]
  · by_cases hE : rtype = some "testEnd"
    · subst hE
      obtain ⟨t, ht⟩ := Option.isSome_iff_exists.mp (hres (Or.inr rfl))
      simp only [Option.some_bind] at ht
      rcases hstat rfl with h | h | h | h <;> subst h <;>
        simp [handleReport, ht]
    · by_cases hR : rtype = some "error"
      · subst hR
        obtain ⟨m, hm⟩ := Option.isSome_iff_exists.mp (hmsg rfl)
        subst hm
        simp [handleReport]
      · unfold handleReport
        split <;> simp_all

/-- Supporting analysis for the counter logic: over streams of structured
lines whose reports carry their test fields, resolve their start and end
names, use the four statuses, and carry messages on error reports, the
success counter grows by exactly the number of success testEnds and the
fail counter by exactly the failure and error testEnds plus top-level
errors plus unknown kinds, with no exception escaping.  The message
hypothesis on error reports is essential: without it the counter totals
fail (see the C3 theorem below). -/
lemma processLines_wellFormed_counter_totals
    (resolve : String → Option TestItem) (decode : String → Option Report)
    (lines : List String) (st : ExecState)
    (hw : ∀ l ∈ lines, wellFormedLine resolve decode l) :
    (processLines resolve decode st lines).state.cntSuccessTests
      = st.cntSuccessTests + lines.countP (isSuccessEndLine decode) ∧
    (processLines resolve decode st lines).state.cntFailTests
      = st.cntFailTests + lines.countP (isFailCountedLine decode) ∧
    (processLines resolve decode st lines).thrown = none := by
  induction lines generalizing st with
  | nil => simp [processLines]
  | cons l rest ih =>
    have hrest : ∀ l' ∈ rest, wellFormedLine resolve decode l' :=
      fun l' h' => hw l' (List.mem_cons_of_mem _ h')
    by_cases hm : startsWithMagic l = true
    · have hwl := hw l (List.mem_cons_self _ _) hm
      cases hdec : decode (payloadOf l) with
      | none => rw [hdec] at hwl; exact absurd hwl (by simp)
      | some r =>
        rw [hdec] at hwl
        have hd := handleReport_wellFormed resolve st r hwl
        have hline : handleLine resolve decode st l = handleReport resolve st r := by
          simp [handleLine, hm, hdec]
        have hih := ih (handleReport resolve st r).state hrest
        have hsucc : (if isSuccessEndLine decode l = true then (1 : Nat) else 0)
            = (if r.type = some "testEnd" ∧ r.status = some "success"
               then (1 : Nat) else 0) := by
          simp [isSuccessEndLine, hm, hdec]
        have hfail : (if isFailCountedLine decode l = true then (1 : Nat) else 0)
            = (if (r.type = some "testEnd" ∧
                    (r.status = some "failure" ∨ r.status = some "error"))
                 ∨ r.type = some "error"
                 ∨ (r.type ≠ some "testStart" ∧ r.type ≠ some "testEnd" ∧
                    r.type ≠ some "error")
               then (1 : Nat) else 0) := by
          simp [isFailCountedLine, hm, hdec]
        simp only [processLines, hline, hd.1]
        refine ⟨?_, ?_, hih.2.2⟩
        · rw [List.countP_cons, hih.1, hd.2.1, hsucc]
          omega
        · rw [List.countP_cons, hih.2.1, hd.2.2, hfail]
          omega
    · have hmf : startsWithMagic l = false := by
        simpa using hm
      have hline : handleLine resolve decode st l
          = ⟨st, [resultConcole l none st.currentTest], none⟩ := by
        simp [handleLine, hmf]
      have hih := ih st hrest
      have hsucc : isSuccessEndLine decode l = false := by
        simp [isSuccessEndLine, hmf]
      have hfail : isFailCountedLine decode l = false := by
        simp [isFailCountedLine, hmf]
      simp only [processLines, hline]
      refine ⟨?_, ?_, hih.2.2⟩
      · rw [List.countP_cons, hih.1, hsucc]
        simp
      · rw [List.countP_cons, hih.2.1, hfail]
        simp

/-- Concrete evaluation of the supporting counter lemma on a six-line
stream: one success end, one failure end, one top-level error, one
unknown-kind report, one resolved start, one passthrough line. -/
lemma processLines_wellFormed_counter_totals_example :
    (processLines resolveFix decodeFix ⟨0, 0, none⟩ c3Lines).state.cntSuccessTests
      = 1 ∧
    (processLines resolveFix decodeFix ⟨0, 0, none⟩ c3Lines).state.cntFailTests
      = 3 ∧
    (processLines resolveFix decodeFix ⟨0, 0, none⟩ c3Lines).thrown = none := by
  have hw : ∀ l ∈ c3Lines, wellFormedLine resolveFix decodeFix l := by
    intro l hl
    fin_cases hl <;> intro hm
    · exact (by decide : wellFormedReport resolveFix
        ⟨some "testStart", some "suiteA\\alpha", none, none, none, none⟩)
    · exact absurd hm (by decide)
    · exact (by decide : wellFormedReport resolveFix
        ⟨some "testEnd", some "suiteA\\alpha", some "success", some 5, none, none⟩)
    · exact (by decide : wellFormedReport resolveFix
        ⟨some "error", some "x", none, none, some "bad setup", none⟩)
    · exact (by decide : wellFormedReport resolveFix
        ⟨some "banana", some "x", none, none, none, none⟩)
    · exact (by decide : wellFormedReport resolveFix
        ⟨some "testEnd", some "suiteB\\beta", some "failure", some 7,
          some "boom", none⟩)
  have h := processLines_wellFormed_counter_totals resolveFix decodeFix
    c3Lines ⟨0, 0, none⟩ hw
  refine ⟨?_, ?_, h.2.2⟩
  · rw [h.1]; decide
  · rw [h.2.1]; decide

/-- C3: the code contradicts the claim.  The claim covers streams
interleaved with arbitrary top-level error reports, whose message field the
wire format leaves optional; on a stream holding a message-less error
report followed by a success testEnd, the TypeError thrown by the error
branch aborts the batch, so at close time the success counter is 0 although
the stream contains one success testEnd: the claimed counter equality
fails. -/
theorem claim_C3_crash_breaks_counter_totals :
    List.countP (isSuccessEndLine decodeFailFix) c3FailLines = 1 ∧
    (processLines resolveFix decodeFailFix ⟨0, 0, none⟩
      c3FailLines).state.cntSuccessTests = 0 ∧
    (processLines resolveFix decodeFailFix ⟨0, 0, none⟩
        c3FailLines).state.cntSuccessTests
      ≠ List.countP (isSuccessEndLine decodeFailFix) c3FailLines ∧
    (processLines resolveFix decodeFailFix ⟨0, 0, none⟩ c3FailLines).thrown
      = some "TypeError: report.message is undefined" := by decide

